import Mathlib

/-!
Verification of the workspace link/unlink reconciliation engine of
@grunnverk/commands-tree (src/commands/link.ts and src/commands/unlink.ts).

The embedding models JavaScript strings as Lean Strings, with the handful of
JS string primitives the code uses (startsWith, split on a character,
includes, trim) implemented by structural recursion over the character list,
and Node path operations (path.join, path.dirname, path.relative) for
already-normalized POSIX paths. Filesystem state around one dependency slot
is a small structure (do the parent directories exist; what occupies the
slot); subprocess outcomes (npm link / npm unlink and friends) are oracles
supplied by an environment record, and logging is a list of events, each
carrying the level of the corresponding logger call in the source.
-/

/-! ## JavaScript string primitives -/

/-- Boolean list-prefix test used to model String.prototype.startsWith. -/
def isPrefixList : List Char → List Char → Bool
  | [], _ => true
  | _ :: _, [] => false
  | a :: as, b :: bs => if a = b then isPrefixList as bs else false

/-- Models JS s.startsWith(p). -/
def jsStartsWith (s p : String) : Bool := isPrefixList p.data s.data

/-- Models JS String.prototype.split(sep) for a one-character separator:
splits on every occurrence, never drops empty fields. -/
def splitOnChar (sep : Char) : List Char → List (List Char)
  | [] => [[]]
  | c :: cs =>
    match splitOnChar sep cs with
    | [] => [[]]
    | r :: rs => if c = sep then [] :: r :: rs else (c :: r) :: rs

/-- Models JS s.split(sep-string-of-one-char) at the String level. -/
def jsSplitOn (sep : Char) (s : String) : List String :=
  (splitOnChar sep s.data).map (fun l => String.mk l)

/-- Does the character list contain the given sublist (contiguously)? -/
def containsSubList (sub : List Char) : List Char → Bool
  | [] => sub.isEmpty
  | c :: cs => isPrefixList sub (c :: cs) || containsSubList sub cs

/-- Models JS s.includes(sub). -/
def jsIncludes (s sub : String) : Bool := containsSubList sub.data s.data

/-- Whitespace for the purposes of JS String.prototype.trim. -/
def jsIsSpace (c : Char) : Bool := c = ' ' || c = '\t' || c = '\n' || c = '\r'

/-- Models JS s.trim(). -/
def jsTrim (s : String) : String :=
  String.mk (((s.data.dropWhile jsIsSpace).reverse.dropWhile jsIsSpace).reverse)

/-! ## POSIX path model (Node path.join / path.dirname / path.relative,
restricted to the already-normalized paths this code builds) -/

/-- Models Node path.join for two segments; an empty segment is ignored
exactly as path.join ignores empty components. -/
def pathJoin (a b : String) : String :=
  if a = "" then b else if b = "" then a else a ++ "/" ++ b

/-- Models Node path.dirname on a normalized path: everything before the
last slash ("." when there is none). -/
def dirname (p : String) : String :=
  if ('/' ∈ p.data) then
    String.mk (((p.data.reverse.dropWhile (fun c => c ≠ '/')).drop 1).reverse)
  else "."

/-- The non-empty components of a path. -/
def pathSegs (p : String) : List String :=
  ((splitOnChar '/' p.data).map (fun l => String.mk l)).filter (fun s => s ≠ "")

/-- Relative walk between two component lists: drop the common leading
components, then one ".." per remaining source component. -/
def relSegs : List String → List String → List String
  | f :: fs, t :: ts => if f = t then relSegs fs ts else (f :: fs).map (fun _ => "..") ++ t :: ts
  | [], ts => ts
  | fs, [] => fs.map (fun _ => "..")

/-- Models Node path.relative for two absolute normalized paths. -/
def pathRelative (f t : String) : String :=
  String.intercalate "/" (relSegs (pathSegs f) (pathSegs t))

/-! ## Data model -/

/-- Validated manifest content: the name field ("" models a missing or empty
name, which the code treats as falsy) and the four dependency sections as
association lists from dependency name to version-specifier string. -/
structure PackageJson where
  name : String
  dependencies : List (String × String) := []
  devDependencies : List (String × String) := []
  peerDependencies : List (String × String) := []
  optionalDependencies : List (String × String) := []
deriving DecidableEq

/-- A discovered package.json of the workspace: its directory and its parsed,
validated content. Manifests whose read or parse failed are skipped by the
source before this point and so do not appear in the list. -/
structure PkgEntry where
  dir : String
  json : PackageJson
deriving DecidableEq

/-- A consuming package as returned by findConsumingPackages. -/
structure Consumer where
  name : String
  path : String
deriving DecidableEq

/-- Result of parsePackageArgument. -/
structure LinkArgument where
  scope : String
  packageName : Option String
deriving DecidableEq

/-- One entry of the status-query output of findLinkedDependencies. -/
structure LinkRecord where
  dependencyName : String
  targetPath : String
  isExternal : Bool
deriving DecidableEq

/-- What occupies a dependency slot (lstat without following symlinks). -/
inductive SlotEntry
  | file
  | dir
  | symlink (target : String)
deriving DecidableEq

/-- Filesystem state around one canonical dependency slot: whether the parent
directories (node_modules and, for a scoped name, the scope directory) exist,
and what, if anything, occupies the slot itself. -/
structure SlotFs where
  parentDirs : Bool
  slot : Option SlotEntry
deriving DecidableEq

/-- Logger levels of the injected logger capability. -/
inductive LogLevel
  | error
  | warn
  | info
  | verbose
deriving DecidableEq

/-- One log call site of createSymbolicLink / removeSymbolicLink. -/
inductive LogEvent
  | dryRunWouldCreate
  | alreadyCorrect
  | symlinkFixing
  | symlinkFixed
  | directoryConflict
  | createdAfterDirRemoval
  | fileConflict
  | createdAfterFileRemoval
  | createdSymlink
  | createFailed
  | dryRunWouldRemove
  | removedSymlink
  | targetNotSymlink
  | noSymlinkFound
  | removeFailed
deriving DecidableEq

/-- The level each event is logged at in the source. -/
def levelOf : LogEvent → LogLevel
  | .directoryConflict => .warn
  | .fileConflict => .warn
  | .createFailed => .warn
  | .removeFailed => .warn
  | .symlinkFixing => .info
  | .symlinkFixed => .info
  | .createdAfterDirRemoval => .info
  | .createdAfterFileRemoval => .info
  | _ => .verbose

/-- Outcome of one reconciler call: the returned boolean, the filesystem
state it leaves behind, and the events it logged. -/
structure ReconcileResult where
  success : Bool
  fs : SlotFs
  log : List LogEvent
deriving DecidableEq

/-! ## Association-list helpers (JS object access) -/

/-- Models obj[key] on a JS object kept as an insertion-ordered list. -/
def jsGet : List (String × String) → String → Option String
  | [], _ => none
  | (k, v) :: rest, key => if k = key then some v else jsGet rest key

/-- Models obj[key] = value: overwrite in place or append. -/
def jsSet (m : List (String × String)) (key v : String) : List (String × String) :=
  if (jsGet m key).isSome then
    m.map (fun kv => if kv.1 = key then (key, v) else kv)
  else m ++ [(key, v)]

/-- Models the object spread union of two dependency sections,
with the second section winning on duplicate keys and key order as JS
produces it (first object's keys, then the second's new keys). -/
def spreadMerge (a b : List (String × String)) : List (String × String) :=
  a.map (fun kv => (kv.1, (jsGet b kv.1).getD kv.2))
    ++ b.filter (fun kv => (jsGet a kv.1).isNone)

/-! ## Symlink reconciler (createSymbolicLink / removeSymbolicLink) -/

/-- Models the destructuring at the top of both reconciler functions:
const [scope, name] = packageName.startsWith(at) ? packageName.split(slash)
: [null, packageName]. For a scoped name without a slash the name component
is undefined; the subsequent path.join then throws, which this embedding
represents by none. -/
def parseScopeName (packageName : String) : Option (Option String × String) :=
  if jsStartsWith packageName "@" then
    match jsSplitOn '/' packageName with
    | s :: n :: _ => some (some s, n)
    | _ => none
  else some (none, packageName)

/-- A dependency name the reconcilers can compute a slot path for: unscoped,
or scoped with a slash (a syntactically valid npm package name). -/
def validDependencyName (packageName : String) : Bool :=
  (parseScopeName packageName).isSome

/-- The canonical dependency slot path inside targetDir for this package
name, or none when the destructured name component is undefined. -/
def slotPathOf (packageName targetDir : String) : Option String :=
  match parseScopeName packageName with
  | some (some scope, nm) => some (pathJoin (pathJoin (pathJoin targetDir "node_modules") scope) nm)
  | some (none, nm) => some (pathJoin (pathJoin targetDir "node_modules") nm)
  | none => none

/-- The relative symlink target the reconciler computes:
path.relative(path.dirname(targetPath), sourcePath). -/
def relTargetFor (packageName sourcePath targetDir : String) : String :=
  match slotPathOf packageName targetDir with
  | some tp => pathRelative (dirname tp) sourcePath
  | none => ""

/-- The state-classification policy of createSymbolicLink after the
parent-directory mkdir (field parentDirs set): stale and conflicting
occupants are replaced by a symlink to the computed relative target, a
correct symlink is left alone, and every branch reports success with the
log events and levels of the source. -/
def reconcileSlot (relativePath : String) (fs0 : SlotFs) : ReconcileResult :=
  match fs0.slot with
  | some (.symlink existingLink) =>
    if existingLink = relativePath then ⟨true, ⟨true, fs0.slot⟩, [.alreadyCorrect]⟩
    else ⟨true, ⟨true, some (.symlink relativePath)⟩, [.symlinkFixing, .symlinkFixed]⟩
  | some .dir =>
    ⟨true, ⟨true, some (.symlink relativePath)⟩, [.directoryConflict, .createdAfterDirRemoval]⟩
  | some .file =>
    ⟨true, ⟨true, some (.symlink relativePath)⟩, [.fileConflict, .createdAfterFileRemoval]⟩
  | none => ⟨true, ⟨true, some (.symlink relativePath)⟩, [.createdSymlink]⟩

/-- Models createSymbolicLink of the link command: classify the slot without
following symlinks and repair it, creating parent directories first; in dry
run, log and report success without touching anything. A scoped name without
a slash makes path.join throw before any mutation; the catch-all logs a
warning and returns false. -/
def createSymbolicLink (packageName sourcePath targetDir : String)
    (isDryRun : Bool) (fs0 : SlotFs) : ReconcileResult :=
  match slotPathOf packageName targetDir with
  | none => ⟨false, fs0, [.createFailed]⟩
  | some targetPath =>
    if isDryRun then ⟨true, fs0, [.dryRunWouldCreate]⟩
    else reconcileSlot (pathRelative (dirname targetPath) sourcePath) fs0

/-- Models removeSymbolicLink of the unlink command: absent slot is success
(nothing to do); a non-symlink occupant is left alone and reported as
failure; a symlink is deleted. Dry run logs and reports success. -/
def removeSymbolicLink (packageName targetDir : String)
    (isDryRun : Bool) (fs0 : SlotFs) : ReconcileResult :=
  match slotPathOf packageName targetDir with
  | none => ⟨false, fs0, [.removeFailed]⟩
  | some _ =>
    if isDryRun then ⟨true, fs0, [.dryRunWouldRemove]⟩
    else
      match fs0.slot with
      | some (.symlink _) => ⟨true, ⟨fs0.parentDirs, none⟩, [.removedSymlink]⟩
      | some .dir => ⟨false, fs0, [.targetNotSymlink]⟩
      | some .file => ⟨false, fs0, [.targetNotSymlink]⟩
      | none => ⟨true, fs0, [.noSymlinkFound]⟩

/-! ## Scope/argument resolver and pattern matching -/

/-- Models parsePackageArgument (identical in link.ts and unlink.ts): throws
unless the argument starts with an at sign; a slash-free argument is
scope-only; otherwise the first split component is the scope and the whole
argument the exact package name. -/
def parsePackageArgument (packageArg : String) : Except String LinkArgument :=
  if jsStartsWith packageArg "@" then
    match jsSplitOn '/' packageArg with
    | [p] => .ok ⟨p, none⟩
    | p :: _ :: _ => .ok ⟨p, some packageArg⟩
    | [] => .error "unreachable: split never returns an empty list"
  else .error ("Package argument must start with @ (scope): " ++ packageArg)

/-- Models matchesExternalLinkPattern / matchesExternalUnlinkPattern: exact
match or prefix match of the dependency name against any pattern. -/
def matchesExternalLinkPattern (dependencyName : String) (externalLinkPatterns : List String) : Bool :=
  externalLinkPatterns.any (fun pattern => dependencyName = pattern || jsStartsWith dependencyName pattern)

/-! ## Consumer graph builder -/

/-- The hasDependency check of findConsumingPackages: some dependency section
holds the target name with a truthy value (in JS the empty version-specifier
string is falsy and fails the check). -/
def hasTruthyDep (j : PackageJson) (target : String) : Bool :=
  [j.dependencies, j.devDependencies, j.peerDependencies, j.optionalDependencies].any
    (fun sec =>
      match jsGet sec target with
      | some v => v ≠ ""
      | none => false)

/-- Models findConsumingPackages (identical in link.ts and unlink.ts) over an
already-discovered workspace: keep the packages with a non-empty name that
declare the target with a truthy specifier and are not the target itself. -/
def findConsumingPackages (ws : List PkgEntry) (targetPackageName : String) : List Consumer :=
  ws.filterMap (fun p =>
    if p.json.name = "" then none
    else if hasTruthyDep p.json targetPackageName ∧ p.json.name ≠ targetPackageName then
      some ⟨p.json.name, p.dir⟩
    else none)

/-! ## Status scan (findLinkedDependencies) -/

/-- The slot path the status scan computes for one dependency key: scoped
keys nest by scope; a scoped key without a slash leaves the name component
undefined, so the subsequent path.join throws (none). -/
def depPathOf (nodeModulesPath dependencyName : String) : Option String :=
  if jsStartsWith dependencyName "@" then
    match jsSplitOn '/' dependencyName with
    | scope :: nm :: _ => some (pathJoin (pathJoin nodeModulesPath scope) nm)
    | _ => none
  else some (pathJoin nodeModulesPath dependencyName)

/-- The record the status scan pushes for one dependency slot: present when
the slot is a symlink with a readable target, classified external when the
stored target has no node_modules component or starts with "..". -/
def linkRecordAt (dependencyName dependencyPath : String)
    (readlinkAt : String → Option String) : List LinkRecord :=
  match readlinkAt dependencyPath with
  | some target =>
    [⟨dependencyName, target, !(jsIncludes target "node_modules") || jsStartsWith target ".."⟩]
  | none => []

/-- The loop of findLinkedDependencies over the merged
dependencies/devDependencies entries. The readlink oracle returns the stored
target when the path is a symlink with a readable target. A scoped
dependency key without a slash makes path.join throw inside the try block,
so the scan stops and returns what it has collected. -/
def findLinkedDepsLoop (nodeModulesPath : String) (readlinkAt : String → Option String) :
    List (String × String) → List LinkRecord
  | [] => []
  | (dependencyName, _) :: rest =>
    match depPathOf nodeModulesPath dependencyName with
    | some dependencyPath =>
      linkRecordAt dependencyName dependencyPath readlinkAt ++
        findLinkedDepsLoop nodeModulesPath readlinkAt rest
    | none => []

/-- Models findLinkedDependencies (identical in link.ts and unlink.ts): walk
the merged dependencies and devDependencies of the manifest and report every
slot occupied by a readable symlink, classifying its stored target. -/
def findLinkedDependencies (packagePath : String) (pj : PackageJson)
    (readlinkAt : String → Option String) : List LinkRecord :=
  findLinkedDepsLoop (pathJoin packagePath "node_modules") readlinkAt
    (spreadMerge pj.dependencies pj.devDependencies)

/-! ## Smart-mode link orchestrator -/

/-- Process-external effects the smart-mode link path can perform, in
order. -/
inductive Effect
  | runNpmLinkSelf
  | runNpmLinkIn (dir : String)
  | queryGlobalRegistry
  | mkSymlink (dep : String) (src : String)
  | regenLock
deriving DecidableEq

/-- Configuration surface the smart link path reads. -/
structure SmartConfig where
  isDryRun : Bool
  externals : List String
  scopeRoots : List (String × String)

/-- Environment oracles for the smart link path: the current directory, the
parsed current manifest (or a read/parse failure), and the outcome of each
subprocess or storage interaction. -/
structure SmartEnv where
  currentDir : String
  currentPkgJson : Except String PackageJson
  selfLinkOk : Bool
  scopeRootLinkOk : String → Bool
  registryOutput : Except String String
  readPkgAt : String → Except String PackageJson
  symlinkOk : String → String → Bool

/-- Models currentPackageJson.name.startsWith(at) ? name.split(slash)[0]
: null. -/
def scopeOfName (name : String) : Option String :=
  if jsStartsWith name "@" then
    match jsSplitOn '/' name with
    | p :: _ => some p
    | [] => none
  else none

/-- The same-scope dependency names of the merged
dependencies/devDependencies keys. -/
def sameScopeDeps (currentScope : String) (pj : PackageJson) : List String :=
  ((spreadMerge pj.dependencies pj.devDependencies).map Prod.fst).filter
    (fun depName => jsStartsWith depName (currentScope ++ "/"))

/-- The dependency names matching a configured external-link pattern. -/
def externalDeps (pj : PackageJson) (externalLinkPatterns : List String) : List String :=
  ((spreadMerge pj.dependencies pj.devDependencies).map Prod.fst).filter
    (fun depName => matchesExternalLinkPattern depName externalLinkPatterns)

/-- The smart-mode link set: same-scope names then pattern-matching names. -/
def smartLinkSet (currentScope : String) (pj : PackageJson) (externalLinkPatterns : List String) :
    List String :=
  sameScopeDeps currentScope pj ++ externalDeps pj externalLinkPatterns

/-- Models path.resolve(currentDir, p) for a normalized p. -/
def pathResolve (currentDir p : String) : String :=
  if jsStartsWith p "/" then p else pathJoin currentDir p

/-- Step 2.6 of smart link: for each pattern-matching dependency with a
configured scope root, look for a matching package there and run npm link in
its directory; every failure is only logged. Returns the effects performed. -/
def scopeRootEffects (env : SmartEnv) (cfg : SmartConfig) : List String → List Effect
  | [] => []
  | depName :: rest =>
    let depScope := scopeOfName depName
    let eff :=
      match depScope with
      | none => []
      | some ds =>
        match jsGet cfg.scopeRoots ds with
        | none => []
        | some scopeRoot =>
          let absoluteScopeRoot := pathResolve env.currentDir scopeRoot
          match jsSplitOn '/' depName with
          | _ :: expectedPackageName :: _ =>
            let packageDir := pathJoin absoluteScopeRoot expectedPackageName
            (match env.readPkgAt (pathJoin packageDir "package.json") with
             | .ok pj' =>
               if pj'.name = depName then
                 if cfg.isDryRun then [] else [Effect.runNpmLinkIn packageDir]
               else []
             | .error _ => [])
          | _ => []
    eff ++ scopeRootEffects env cfg rest

/-- Registry-map construction of step 3: one directory path per output line;
read each directory's manifest and record name to directory, skipping
unreadable or nameless entries. -/
def registryMapOf (env : SmartEnv) (lines : List String) : List (String × String) :=
  lines.foldl (fun acc dirPath =>
    match env.readPkgAt (pathJoin (jsTrim dirPath) "package.json") with
    | .ok pj' => if pj'.name ≠ "" then jsSet acc pj'.name (jsTrim dirPath) else acc
    | .error _ => acc) []

/-- Step 4 of smart link: reconcile each link-set name present in the
registry map; names absent from the registry are skipped. Returns the
successfully linked names and the symlink effects attempted. -/
def linkDepsStep (env : SmartEnv) (registry : List (String × String)) :
    List String → List String × List Effect
  | [] => ([], [])
  | depName :: rest =>
    let (names, effs) := linkDepsStep env registry rest
    match jsGet registry depName with
    | some sourcePath =>
      (if env.symlinkOk depName sourcePath then depName :: names else names,
       Effect.mkSymlink depName sourcePath :: effs)
    | none => (names, effs)

/-- The non-empty-link-set continuation of the smart link path: scope-roots
pre-linking, registry discovery (dry run returns before the query), manual
symlinking, lockfile regeneration, and the summary string. -/
def smartLinkNonEmpty (env : SmartEnv) (cfg : SmartConfig) (pj : PackageJson)
    (externalDependencies allDependenciesToLink : List String) (selfEff : List Effect) :
    String × List Effect :=
  let scopeEff :=
    if cfg.scopeRoots ≠ [] ∧ externalDependencies ≠ [] then
      scopeRootEffects env cfg externalDependencies
    else []
  if cfg.isDryRun then
    ("DRY RUN: Would self-link and attempt to link " ++
       toString allDependenciesToLink.length ++ " dependencies",
     selfEff ++ scopeEff)
  else
    let registry :=
      match env.registryOutput with
      | .ok out =>
        registryMapOf env
          ((jsSplitOn '\n' (jsTrim out)).filter (fun line => jsTrim line ≠ ""))
      | .error _ => []
    let (linkedDependencies, linkEff) := linkDepsStep env registry allDependenciesToLink
    let summary :=
      if linkedDependencies.length > 0 then
        "Self-linked " ++ pj.name ++ " and linked " ++ toString linkedDependencies.length ++
          " dependencies: " ++ String.intercalate ", " linkedDependencies
      else "Self-linked " ++ pj.name ++ ", no dependencies were available to link"
    (summary, selfEff ++ scopeEff ++ [Effect.queryGlobalRegistry] ++ linkEff ++ [Effect.regenLock])

/-- The smart link path once the current manifest parsed and its name proved
scoped: self-register (soft), compute the link set, short-circuit when it is
empty, otherwise continue with registry discovery and reconciliation. -/
def smartLinkScoped (env : SmartEnv) (cfg : SmartConfig) (pj : PackageJson)
    (currentScope : String) : String × List Effect :=
  let selfEff : List Effect := if cfg.isDryRun then [] else [Effect.runNpmLinkSelf]
  let sameScopeDependencies := sameScopeDeps currentScope pj
  let externalDependencies := externalDeps pj cfg.externals
  let allDependenciesToLink := sameScopeDependencies ++ externalDependencies
  if allDependenciesToLink.isEmpty then
    (if cfg.isDryRun then "DRY RUN: Would self-link, no dependencies found to link"
     else "Self-linked " ++ pj.name ++ ", no dependencies to link",
     selfEff)
  else
    smartLinkNonEmpty env cfg pj externalDependencies allDependenciesToLink selfEff

/-- The smart link path once the current manifest parsed: terminal no-raise
failures for a missing name or missing scope, then the scoped path. -/
def smartLinkParsed (env : SmartEnv) (cfg : SmartConfig) (pj : PackageJson) :
    String × List Effect :=
  if pj.name = "" then
    ("PACKAGE_NAME_MISSING: package.json must have a name field", [])
  else
    match scopeOfName pj.name with
    | none => ("PACKAGE_SCOPE_MISSING: Package must have scoped name for smart linking", [])
    | some currentScope => smartLinkScoped env cfg pj currentScope

/-- Models executeInternal of link.ts in smart mode (no package argument):
terminal no-raise failures for a missing manifest, missing name or missing
scope, then the scoped path. The result is the returned string and the
ordered process-external effects. -/
def smartLink (env : SmartEnv) (cfg : SmartConfig) : String × List Effect :=
  match env.currentPkgJson with
  | .error e => ("PACKAGE_JSON_NOT_FOUND: No valid package.json in current directory: " ++ e, [])
  | .ok pj => smartLinkParsed env cfg pj

/-! ## Explicit-mode orchestrators (scope or exact-name argument) -/

/-- A matching source package of the explicit mode. -/
structure WsPackage where
  name : String
  path : String
deriving DecidableEq

/-- Subprocess outcome oracles for the explicit link/unlink loops. -/
structure ExplicitEnv where
  npmLinkSource : String → Bool
  npmLinkConsumer : String → String → Bool
  npmUnlinkConsumer : String → String → Bool
  npmUnlinkSource : String → Bool

/-- The raised errors of the explicit link path. -/
inductive LinkFailure
  | sourceLinkFailed (pkgName : String)
  | consumerLinkFailed (pkgName consumerName : String)
deriving DecidableEq

/-- The consumer loop of explicit-mode link: npm link the source into each
consumer in order; the first failure logs an error and throws, so the
consumers after it are never attempted. Returns the consumers processed
before any failure and the failure itself. -/
def linkConsumerLoop (env : ExplicitEnv) (isDryRun : Bool) (pkgName : String) :
    List Consumer → List Consumer × Option LinkFailure
  | [] => ([], none)
  | c :: cs =>
    if isDryRun then
      let (ps, e) := linkConsumerLoop env isDryRun pkgName cs
      (c :: ps, e)
    else if env.npmLinkConsumer pkgName c.path then
      let (ps, e) := linkConsumerLoop env isDryRun pkgName cs
      (c :: ps, e)
    else ([], some (.consumerLinkFailed pkgName c.name))

/-- The per-source-package loop of explicit-mode link: register the source
globally (raising on failure), then relink every direct consumer (any
consumer failure is rethrown and aborts the whole operation, discarding the
packages linked so far); only a fully clean run returns the linked names. -/
def linkPackagesLoop (env : ExplicitEnv) (ws : List PkgEntry) (isDryRun : Bool) :
    List WsPackage → Except LinkFailure (List String)
  | [] => .ok []
  | pkg :: rest =>
    if isDryRun || env.npmLinkSource pkg.path then
      match linkConsumerLoop env isDryRun pkg.name (findConsumingPackages ws pkg.name) with
      | (_, some e) => .error e
      | (_, none) =>
        match linkPackagesLoop env ws isDryRun rest with
        | .ok names => .ok (pkg.name :: names)
        | .error e => .error e
    else .error (.sourceLinkFailed pkg.name)

/-- The consumer loop of explicit-mode unlink: npm unlink the source from
each consumer in order; a failure is caught and logged as a warning and the
loop continues. The trace records every consumer with its outcome. -/
def unlinkConsumerLoop (env : ExplicitEnv) (isDryRun : Bool) (pkgName : String) :
    List Consumer → List (Consumer × Bool)
  | [] => []
  | c :: cs =>
    let ok := if isDryRun then true else env.npmUnlinkConsumer pkgName c.path
    (c, ok) :: unlinkConsumerLoop env isDryRun pkgName cs

/-- The per-source-package loop of explicit-mode unlink: unlink from every
consumer (failures only warned), then remove the source's own registration
(its failure also only warned), counting the package as unlinked either way.
Returns the unlinked names and the full consumer-attempt trace. -/
def unlinkPackagesLoop (env : ExplicitEnv) (ws : List PkgEntry) (isDryRun : Bool) :
    List WsPackage → List String × List (Consumer × Bool)
  | [] => ([], [])
  | pkg :: rest =>
    let attempts := unlinkConsumerLoop env isDryRun pkg.name (findConsumingPackages ws pkg.name)
    let (names, trace) := unlinkPackagesLoop env ws isDryRun rest
    (pkg.name :: names, attempts ++ trace)

/-! ## Helper lemmas -/

/-- The characters of a string before the first occurrence of a separator
(the whole string when the separator does not occur). -/
def takeUntilChar (sep : Char) : List Char → List Char
  | [] => []
  | c :: cs => if c = sep then [] else c :: takeUntilChar sep cs

/-- The substring before the first occurrence of sep, the claim's notion of
the text before the first slash. -/
def beforeFirstChar (sep : Char) (s : String) : String :=
  String.mk (takeUntilChar sep s.data)

lemma splitOnChar_ne_nil (sep : Char) (l : List Char) : splitOnChar sep l ≠ [] := by
  cases l with
  | nil => simp [splitOnChar]
  | cons c cs =>
    unfold splitOnChar
    cases h : splitOnChar sep cs with
    | nil => simp
    | cons r rs => by_cases hc : c = sep <;> simp [hc]

lemma splitOnChar_of_not_mem (sep : Char) (l : List Char) (h : sep ∉ l) :
    splitOnChar sep l = [l] := by
  induction l with
  | nil => rfl
  | cons c cs ih =>
    have hc : c ≠ sep := fun he => h (he ▸ List.mem_cons_self c cs)
    have hcs : sep ∉ cs := fun hm => h (List.mem_cons_of_mem c hm)
    unfold splitOnChar
    rw [ih hcs]
    simp [hc]

lemma splitOnChar_of_mem (sep : Char) (l : List Char) (h : sep ∈ l) :
    ∃ b rs, splitOnChar sep l = takeUntilChar sep l :: b :: rs := by
  induction l with
  | nil => cases h
  | cons c cs ih =>
    by_cases hc : c = sep
    · subst hc
      cases hsp : splitOnChar c cs with
      | nil => exact absurd hsp (splitOnChar_ne_nil c cs)
      | cons r rs =>
        refine ⟨r, rs, ?_⟩
        unfold splitOnChar takeUntilChar
        rw [hsp]
        simp
    · have hcs : sep ∈ cs := by
        cases List.mem_cons.mp h with
        | inl he => exact absurd he.symm hc
        | inr hm => exact hm
      obtain ⟨b, rs, hsp⟩ := ih hcs
      refine ⟨b, rs, ?_⟩
      unfold splitOnChar takeUntilChar
      rw [hsp]
      simp [hc]

lemma string_mk_data (s : String) : String.mk s.data = s := by
  cases s
  rfl

lemma jsGet_eq_none_iff (m : List (String × String)) (k : String) :
    jsGet m k = none ↔ k ∉ m.map Prod.fst := by
  induction m with
  | nil => simp [jsGet]
  | cons kv rest ih =>
    obtain ⟨a, b⟩ := kv
    by_cases h : a = k
    · subst h
      simp [jsGet]
    · simp [jsGet, h, ih, Ne.symm h]

lemma mem_keys_spreadMerge {a b : List (String × String)} {d : String}
    (h : d ∈ (spreadMerge a b).map Prod.fst) :
    d ∈ a.map Prod.fst ∨ d ∈ b.map Prod.fst := by
  unfold spreadMerge at h
  rw [List.map_append] at h
  cases List.mem_append.mp h with
  | inl hl =>
    left
    rw [List.map_map] at hl
    obtain ⟨kv, hkv, he⟩ := List.mem_map.mp hl
    exact List.mem_map.mpr ⟨kv, hkv, he⟩
  | inr hr =>
    right
    obtain ⟨kv, hkv, he⟩ := List.mem_map.mp hr
    exact List.mem_map.mpr ⟨kv, (List.mem_filter.mp hkv).1, he⟩

lemma mem_linkRecordAt {dependencyName dependencyPath : String}
    {readlinkAt : String → Option String} {r : LinkRecord}
    (h : r ∈ linkRecordAt dependencyName dependencyPath readlinkAt) :
    r.dependencyName = dependencyName ∧
      r.isExternal = (!(jsIncludes r.targetPath "node_modules") || jsStartsWith r.targetPath "..") := by
  unfold linkRecordAt at h
  cases hrd : readlinkAt dependencyPath with
  | none => rw [hrd] at h; cases h
  | some target =>
    rw [hrd] at h
    cases List.mem_cons.mp h with
    | inl he => subst he; exact ⟨rfl, rfl⟩
    | inr hm => cases hm

lemma mem_findLinkedDepsLoop {nodeModulesPath : String}
    {readlinkAt : String → Option String} {l : List (String × String)} {r : LinkRecord}
    (h : r ∈ findLinkedDepsLoop nodeModulesPath readlinkAt l) :
    r.dependencyName ∈ l.map Prod.fst ∧
      r.isExternal = (!(jsIncludes r.targetPath "node_modules") || jsStartsWith r.targetPath "..") := by
  induction l with
  | nil => cases h
  | cons kv rest ih =>
    obtain ⟨dependencyName, ver⟩ := kv
    unfold findLinkedDepsLoop at h
    cases hdp : depPathOf nodeModulesPath dependencyName with
    | none => rw [hdp] at h; cases h
    | some dependencyPath =>
      rw [hdp] at h
      cases List.mem_append.mp h with
      | inl hrec =>
        obtain ⟨hname, hext⟩ := mem_linkRecordAt hrec
        exact ⟨by rw [hname]; exact List.mem_cons_self _ _, hext⟩
      | inr hrest =>
        obtain ⟨hname, hext⟩ := ih hrest
        exact ⟨List.mem_cons_of_mem _ hname, hext⟩

lemma slotPathOf_isSome_of_valid (packageName targetDir : String)
    (h : validDependencyName packageName = true) :
    (slotPathOf packageName targetDir).isSome := by
  unfold validDependencyName at h
  unfold slotPathOf
  cases hp : parseScopeName packageName with
  | none => rw [hp] at h; simp at h
  | some pr =>
    obtain ⟨sc, nm⟩ := pr
    cases sc <;> simp

lemma linkConsumerLoop_abort (env : ExplicitEnv) (pkgName : String)
    (cs1 cs2 : List Consumer) (c : Consumer)
    (hok : ∀ x ∈ cs1, env.npmLinkConsumer pkgName x.path = true)
    (hfail : env.npmLinkConsumer pkgName c.path = false) :
    linkConsumerLoop env false pkgName (cs1 ++ c :: cs2) =
      (cs1, some (.consumerLinkFailed pkgName c.name)) := by
  induction cs1 with
  | nil =>
    unfold linkConsumerLoop
    simp [hfail]
  | cons x xs ih =>
    have hx : env.npmLinkConsumer pkgName x.path = true := hok x (List.mem_cons_self x xs)
    have hxs : ∀ y ∈ xs, env.npmLinkConsumer pkgName y.path = true :=
      fun y hy => hok y (List.mem_cons_of_mem x hy)
    unfold linkConsumerLoop
    simp only [List.cons_append, hx]
    rw [ih hxs]
    simp

lemma unlinkConsumerLoop_fst (env : ExplicitEnv) (isDryRun : Bool) (pkgName : String)
    (l : List Consumer) :
    (unlinkConsumerLoop env isDryRun pkgName l).map Prod.fst = l := by
  induction l with
  | nil => rfl
  | cons c cs ih =>
    unfold unlinkConsumerLoop
    simp [ih]

lemma unlinkConsumerLoop_mem (env : ExplicitEnv) (pkgName : String)
    {l : List Consumer} {c : Consumer} (h : c ∈ l) :
    (c, env.npmUnlinkConsumer pkgName c.path) ∈ unlinkConsumerLoop env false pkgName l := by
  induction l with
  | nil => cases h
  | cons x xs ih =>
    unfold unlinkConsumerLoop
    cases List.mem_cons.mp h with
    | inl he =>
      subst he
      simp
    | inr hm =>
      exact List.mem_cons_of_mem _ (ih hm)

lemma hasTruthyDep_iff (j : PackageJson) (target : String) :
    hasTruthyDep j target = true ↔
      ∃ sec ∈ [j.dependencies, j.devDependencies, j.peerDependencies, j.optionalDependencies],
        ∃ v, jsGet sec target = some v ∧ v ≠ "" := by
  unfold hasTruthyDep
  rw [List.any_eq_true]
  constructor
  · rintro ⟨sec, hsec, hf⟩
    refine ⟨sec, hsec, ?_⟩
    cases hg : jsGet sec target with
    | none => rw [hg] at hf; cases hf
    | some v =>
      rw [hg] at hf
      exact ⟨v, rfl, by simpa using hf⟩
  · rintro ⟨sec, hsec, v, hg, hv⟩
    refine ⟨sec, hsec, ?_⟩
    rw [hg]
    simpa using hv

lemma reconcileSlot_run (relativePath : String) (fs0 : SlotFs) :
    (reconcileSlot relativePath fs0).success = true ∧
    (reconcileSlot relativePath fs0).fs = ⟨true, some (.symlink relativePath)⟩ := by
  unfold reconcileSlot
  cases hs : fs0.slot with
  | none => simp
  | some e =>
    cases e with
    | file => exact ⟨rfl, rfl⟩
    | dir => exact ⟨rfl, rfl⟩
    | symlink t =>
      by_cases ht : t = relativePath
      · subst ht
        simp
      · simp [ht]

lemma reconcileSlot_correct_target (relativePath : String) (b : Bool) :
    reconcileSlot relativePath ⟨b, some (.symlink relativePath)⟩ =
      ⟨true, ⟨true, some (.symlink relativePath)⟩, [.alreadyCorrect]⟩ := by
  unfold reconcileSlot
  simp

lemma createSymbolicLink_first {packageName targetDir : String} {tp : String}
    (htp : slotPathOf packageName targetDir = some tp)
    (sourcePath : String) (fs0 : SlotFs) :
    (createSymbolicLink packageName sourcePath targetDir false fs0).success = true ∧
    (createSymbolicLink packageName sourcePath targetDir false fs0).fs =
      ⟨true, some (.symlink (pathRelative (dirname tp) sourcePath))⟩ := by
  unfold createSymbolicLink
  rw [htp]
  exact reconcileSlot_run _ _

lemma createSymbolicLink_second {packageName targetDir : String} {tp : String}
    (htp : slotPathOf packageName targetDir = some tp)
    (sourcePath : String) (fs1 : SlotFs)
    (h : fs1.slot = some (.symlink (pathRelative (dirname tp) sourcePath))) :
    createSymbolicLink packageName sourcePath targetDir false fs1 =
      ⟨true, ⟨true, fs1.slot⟩, [.alreadyCorrect]⟩ := by
  unfold createSymbolicLink
  rw [htp]
  show reconcileSlot _ fs1 = _
  unfold reconcileSlot
  rw [h]
  simp

/-! ## Claim theorems -/

/-- Claim C3: removeSymlink mirror semantics. For every syntactically valid
dependency name and consumer directory, in a real (non-dry-run) call: an
absent slot is reported as success and nothing changes; a slot occupied by a
non-symlink entry is left unmodified and the call reports non-success; a
slot occupied by a symlink has exactly that symlink deleted and the call
reports success. -/
theorem c3_removeSymlink_mirror_semantics (packageName targetDir : String) (fs0 : SlotFs)
    (hwf : validDependencyName packageName = true) :
    (fs0.slot = none →
      removeSymbolicLink packageName targetDir false fs0 =
        ⟨true, fs0, [LogEvent.noSymlinkFound]⟩) ∧
    ((fs0.slot = some SlotEntry.dir ∨ fs0.slot = some SlotEntry.file) →
      (removeSymbolicLink packageName targetDir false fs0).success = false ∧
      (removeSymbolicLink packageName targetDir false fs0).fs = fs0) ∧
    (∀ t, fs0.slot = some (SlotEntry.symlink t) →
      removeSymbolicLink packageName targetDir false fs0 =
        ⟨true, ⟨fs0.parentDirs, none⟩, [LogEvent.removedSymlink]⟩) := by
  obtain ⟨tp, htp⟩ := Option.isSome_iff_exists.mp (slotPathOf_isSome_of_valid packageName targetDir hwf)
  refine ⟨?_, ?_, ?_⟩
  · intro h
    unfold removeSymbolicLink
    rw [htp, h]
    rfl
  · intro h
    cases h with
    | inl hd =>
      unfold removeSymbolicLink
      rw [htp, hd]
      exact ⟨rfl, rfl⟩
    | inr hf =>
      unfold removeSymbolicLink
      rw [htp, hf]
      exact ⟨rfl, rfl⟩
  · intro t h
    unfold removeSymbolicLink
    rw [htp, h]
    rfl

/-- Witness for C3 at a concrete input: a symlink at the slot of dependency
"@acme/a" inside "/ws/consumer" is deleted with success, a file occupant is
kept with non-success, and an absent slot is success. -/
theorem c3_removeSymlink_mirror_semantics_witness :
    removeSymbolicLink "@acme/a" "/ws/consumer" false
        ⟨true, some (SlotEntry.symlink "../../a")⟩ =
      ⟨true, ⟨true, none⟩, [LogEvent.removedSymlink]⟩ :=
  (c3_removeSymlink_mirror_semantics "@acme/a" "/ws/consumer"
      ⟨true, some (SlotEntry.symlink "../../a")⟩ (by decide)).2.2 "../../a" rfl

/-- Claim C4: occupied-slot conflict resolution. For every syntactically
valid dependency name, in a real (non-dry-run) reconcile of a slot occupied
by an ordinary directory or file, the occupant is removed and replaced by a
symlink with the computed relative target, a warning-level event is logged,
and the call still reports success. -/
theorem c4_occupied_slot_resolution (packageName sourcePath targetDir : String) (fs0 : SlotFs)
    (hwf : validDependencyName packageName = true)
    (hocc : fs0.slot = some SlotEntry.dir ∨ fs0.slot = some SlotEntry.file) :
    (createSymbolicLink packageName sourcePath targetDir false fs0).success = true ∧
    (createSymbolicLink packageName sourcePath targetDir false fs0).fs.slot =
      some (SlotEntry.symlink (relTargetFor packageName sourcePath targetDir)) ∧
    ∃ e ∈ (createSymbolicLink packageName sourcePath targetDir false fs0).log,
      levelOf e = LogLevel.warn := by
  obtain ⟨tp, htp⟩ := Option.isSome_iff_exists.mp (slotPathOf_isSome_of_valid packageName targetDir hwf)
  have hrel : relTargetFor packageName sourcePath targetDir = pathRelative (dirname tp) sourcePath := by
    unfold relTargetFor
    rw [htp]
  unfold createSymbolicLink
  rw [htp, hrel]
  show (reconcileSlot _ fs0).success = true ∧ _ ∧ _
  unfold reconcileSlot
  cases hocc with
  | inl hd =>
    rw [hd]
    exact ⟨rfl, rfl, LogEvent.directoryConflict, by simp, rfl⟩
  | inr hf =>
    rw [hf]
    exact ⟨rfl, rfl, LogEvent.fileConflict, by simp, rfl⟩

/-- Witness for C4 at a concrete input: reconciling the slot of "@acme/a"
inside "/ws/consumer" against source "/ws/a" while a directory occupies the
slot. -/
theorem c4_occupied_slot_resolution_witness :
    (createSymbolicLink "@acme/a" "/ws/a" "/ws/consumer" false ⟨true, some SlotEntry.dir⟩).success = true ∧
    (createSymbolicLink "@acme/a" "/ws/a" "/ws/consumer" false ⟨true, some SlotEntry.dir⟩).fs.slot =
      some (SlotEntry.symlink (relTargetFor "@acme/a" "/ws/a" "/ws/consumer")) ∧
    ∃ e ∈ (createSymbolicLink "@acme/a" "/ws/a" "/ws/consumer" false ⟨true, some SlotEntry.dir⟩).log,
      levelOf e = LogLevel.warn :=
  c4_occupied_slot_resolution "@acme/a" "/ws/a" "/ws/consumer" ⟨true, some SlotEntry.dir⟩
    (by decide) (Or.inl rfl)

/-- Claim C5: reconciler idempotence. For every syntactically valid
dependency name, source directory, consumer directory and initial slot
state, running the reconciler twice (non-dry-run) leaves the same filesystem
state as running it once, and the second run takes the correct-target no-op
branch (its only log event) and reports success. -/
theorem c5_reconciler_idempotent (packageName sourcePath targetDir : String) (fs0 : SlotFs)
    (hwf : validDependencyName packageName = true) :
    (createSymbolicLink packageName sourcePath targetDir false
        (createSymbolicLink packageName sourcePath targetDir false fs0).fs).fs =
      (createSymbolicLink packageName sourcePath targetDir false fs0).fs ∧
    (createSymbolicLink packageName sourcePath targetDir false
        (createSymbolicLink packageName sourcePath targetDir false fs0).fs).success = true ∧
    (createSymbolicLink packageName sourcePath targetDir false
        (createSymbolicLink packageName sourcePath targetDir false fs0).fs).log =
      [LogEvent.alreadyCorrect] := by
  obtain ⟨tp, htp⟩ := Option.isSome_iff_exists.mp (slotPathOf_isSome_of_valid packageName targetDir hwf)
  have hfirst := createSymbolicLink_first htp sourcePath fs0
  have hsecond := createSymbolicLink_second htp sourcePath
    (createSymbolicLink packageName sourcePath targetDir false fs0).fs (by rw [hfirst.2])
  refine ⟨?_, ?_, ?_⟩
  · rw [hsecond, hfirst.2]
  · rw [hsecond]
  · rw [hsecond]

/-- Witness for C5 at a concrete input: double reconciliation of "@acme/a"
into "/ws/consumer" from source "/ws/a" starting from an empty slot. -/
theorem c5_reconciler_idempotent_witness :
    (createSymbolicLink "@acme/a" "/ws/a" "/ws/consumer" false
        (createSymbolicLink "@acme/a" "/ws/a" "/ws/consumer" false ⟨false, none⟩).fs).fs =
      (createSymbolicLink "@acme/a" "/ws/a" "/ws/consumer" false ⟨false, none⟩).fs ∧
    (createSymbolicLink "@acme/a" "/ws/a" "/ws/consumer" false
        (createSymbolicLink "@acme/a" "/ws/a" "/ws/consumer" false ⟨false, none⟩).fs).success = true ∧
    (createSymbolicLink "@acme/a" "/ws/a" "/ws/consumer" false
        (createSymbolicLink "@acme/a" "/ws/a" "/ws/consumer" false ⟨false, none⟩).fs).log =
      [LogEvent.alreadyCorrect] :=
  c5_reconciler_idempotent "@acme/a" "/ws/a" "/ws/consumer" ⟨false, none⟩ (by decide)

/-- Claim C9: dry-run frame property. For every syntactically valid
dependency name and any current slot state, both the symlink-creation
operation and the symlink-removal operation with the dryRun flag set leave
the filesystem exactly as it was and report success. -/
theorem c9_dry_run_frame (packageName sourcePath targetDir : String) (fs0 : SlotFs)
    (hwf : validDependencyName packageName = true) :
    createSymbolicLink packageName sourcePath targetDir true fs0 =
      ⟨true, fs0, [LogEvent.dryRunWouldCreate]⟩ ∧
    removeSymbolicLink packageName targetDir true fs0 =
      ⟨true, fs0, [LogEvent.dryRunWouldRemove]⟩ := by
  obtain ⟨tp, htp⟩ := Option.isSome_iff_exists.mp (slotPathOf_isSome_of_valid packageName targetDir hwf)
  constructor
  · unfold createSymbolicLink
    rw [htp]
    rfl
  · unfold removeSymbolicLink
    rw [htp]
    rfl

/-- Witness for C9 at a concrete input: dry-run creation and removal for
"@acme/a" in "/ws/consumer" over a slot occupied by a directory change
nothing and report success. -/
theorem c9_dry_run_frame_witness :
    createSymbolicLink "@acme/a" "/ws/a" "/ws/consumer" true ⟨false, some SlotEntry.dir⟩ =
      ⟨true, ⟨false, some SlotEntry.dir⟩, [LogEvent.dryRunWouldCreate]⟩ ∧
    removeSymbolicLink "@acme/a" "/ws/consumer" true ⟨false, some SlotEntry.dir⟩ =
      ⟨true, ⟨false, some SlotEntry.dir⟩, [LogEvent.dryRunWouldRemove]⟩ :=
  c9_dry_run_frame "@acme/a" "/ws/a" "/ws/consumer" ⟨false, some SlotEntry.dir⟩ (by decide)

/-- Claim C2 (amended): status-query isExternal classification. Every record
the status scan produces has its isExternal flag equal to: the stored target
does not contain a node_modules component, or the target starts with "..".
In particular a stored relative target "../../a" is classified external
(true), not internal — see the counterexample theorem for the claim's
original "isExternal: false" reading — and an absolute target
"/Users/dev/other-workspace/a" is classified external (true). -/
theorem c2_isExternal_classification (packagePath : String) (pj : PackageJson)
    (readlinkAt : String → Option String) (r : LinkRecord)
    (hr : r ∈ findLinkedDependencies packagePath pj readlinkAt) :
    r.isExternal =
      (!(jsIncludes r.targetPath "node_modules") || jsStartsWith r.targetPath "..") :=
  (mem_findLinkedDepsLoop hr).2

/-- Witness for C2 at a concrete input: a consumer whose "@acme/a" slot is a
symlink resolving to "/Users/dev/other-workspace/a"; the scan record is
classified by the stated rule (and is external). -/
theorem c2_isExternal_classification_witness :
    (⟨"@acme/a", "/Users/dev/other-workspace/a", true⟩ : LinkRecord).isExternal =
      (!(jsIncludes "/Users/dev/other-workspace/a" "node_modules") ||
        jsStartsWith "/Users/dev/other-workspace/a" "..") :=
  c2_isExternal_classification "/ws/consumer"
    ⟨"@acme/consumer", [("@acme/a", "^1.0.0")], [], [], []⟩
    (fun p => if p = "/ws/consumer/node_modules/@acme/a"
              then some "/Users/dev/other-workspace/a" else none)
    ⟨"@acme/a", "/Users/dev/other-workspace/a", true⟩ (by decide)

/-- Counterexample to C2 as stated: in a workspace where the "@acme/a" slot
of "@acme/consumer" stores the relative target "../../a" (a path inside the
workspace), the scan classifies it isExternal := true — the target contains
no node_modules component, so the code's rule fires — while the claim says
such a record must be classified isExternal: false. -/
theorem c2_internal_target_counterexample :
    findLinkedDependencies "/ws/consumer"
        ⟨"@acme/consumer", [("@acme/a", "^1.0.0")], [], [], []⟩
        (fun p => if p = "/ws/consumer/node_modules/@acme/a" then some "../../a" else none) =
      [⟨"@acme/a", "../../a", true⟩] ∧
    (⟨"@acme/a", "../../a", true⟩ : LinkRecord).isExternal ≠ false := by
  constructor
  · rfl
  · decide

/-- The claim's own wording for comparison: the target name appears as a key
in the union of the four dependency sections (regardless of the value stored
under it). -/
def keyInAnySection (j : PackageJson) (k : String) : Bool :=
  [j.dependencies, j.devDependencies, j.peerDependencies, j.optionalDependencies].any
    (fun sec => (jsGet sec k).isSome)

/-- Claim C6 (amended): Consumer Graph Builder membership. A record is in
the returned consumer set exactly when some workspace package has a
non-empty name different from the target, declares the target in one of its
four dependency sections with a non-empty (JS-truthy) version specifier, and
the record carries that package's name and directory. The amendment adds
"with a non-empty version specifier" (and a present name): a key stored with
the empty string is falsy in the source's hasDependency check. -/
theorem c6_consumer_membership (ws : List PkgEntry) (targetPackageName : String) (x : Consumer) :
    x ∈ findConsumingPackages ws targetPackageName ↔
      ∃ p ∈ ws, p.json.name ≠ "" ∧ p.json.name ≠ targetPackageName ∧
        (∃ sec ∈ [p.json.dependencies, p.json.devDependencies,
                  p.json.peerDependencies, p.json.optionalDependencies],
          ∃ v, jsGet sec targetPackageName = some v ∧ v ≠ "") ∧
        x = ⟨p.json.name, p.dir⟩ := by
  unfold findConsumingPackages
  rw [List.mem_filterMap]
  constructor
  · rintro ⟨p, hp, hf⟩
    by_cases h1 : p.json.name = ""
    · rw [if_pos h1] at hf
      cases hf
    · rw [if_neg h1] at hf
      by_cases h2 : hasTruthyDep p.json targetPackageName = true ∧ p.json.name ≠ targetPackageName
      · rw [if_pos h2] at hf
        refine ⟨p, hp, h1, h2.2, (hasTruthyDep_iff p.json targetPackageName).mp h2.1, ?_⟩
        exact (Option.some_inj.mp hf).symm
      · rw [if_neg h2] at hf
        cases hf
  · rintro ⟨p, hp, h1, h2, h3, hx⟩
    refine ⟨p, hp, ?_⟩
    rw [if_neg h1, if_pos ⟨(hasTruthyDep_iff p.json targetPackageName).mpr h3, h2⟩, hx]

/-- Counterexample to C6 as stated: the package "@acme/consumer" declares
"@acme/a" in its dependencies section with the empty version specifier, so
the target appears as a key in the union of the four sections and the names
differ, yet the Consumer Graph Builder returns the empty consumer set — the
empty string is falsy in the source's per-section check. -/
theorem c6_empty_specifier_counterexample :
    keyInAnySection ⟨"@acme/consumer", [("@acme/a", "")], [], [], []⟩ "@acme/a" = true ∧
    ("@acme/consumer" : String) ≠ "@acme/a" ∧
    findConsumingPackages
        [⟨"/ws/consumer", ⟨"@acme/consumer", [("@acme/a", "")], [], [], []⟩⟩] "@acme/a" = [] := by
  refine ⟨rfl, by decide, rfl⟩

lemma jsSplitOn_ne_nil (sep : Char) (s : String) : jsSplitOn sep s ≠ [] := by
  unfold jsSplitOn
  intro h
  exact splitOnChar_ne_nil sep s.data (List.map_eq_nil_iff.mp h)

/-- Claim C8: scope/argument resolution. For every input string, resolution
fails exactly when the string does not start with "@"; an accepted input
without a slash resolves to itself as a scope with no exact name; an
accepted input with a slash resolves to the substring before the first slash
as the scope and the whole input as the exact package name. -/
theorem c8_parse_argument_resolution (arg : String) :
    ((parsePackageArgument arg).isOk = true ↔ jsStartsWith arg "@" = true) ∧
    (jsStartsWith arg "@" = true → '/' ∉ arg.data →
      parsePackageArgument arg = .ok ⟨arg, none⟩) ∧
    (jsStartsWith arg "@" = true → '/' ∈ arg.data →
      parsePackageArgument arg = .ok ⟨beforeFirstChar '/' arg, some arg⟩) := by
  refine ⟨?_, ?_, ?_⟩
  · by_cases hs : jsStartsWith arg "@" = true
    · unfold parsePackageArgument
      rw [if_pos hs]
      cases hsp : jsSplitOn '/' arg with
      | nil => exact absurd hsp (jsSplitOn_ne_nil '/' arg)
      | cons p tl =>
        cases tl with
        | nil => simp [Except.isOk, Except.toBool, hs]
        | cons q tl2 => simp [Except.isOk, Except.toBool, hs]
    · unfold parsePackageArgument
      rw [if_neg hs]
      simp [Except.isOk, Except.toBool, hs]
  · intro hs hnm
    have hsp := splitOnChar_of_not_mem '/' arg.data hnm
    unfold parsePackageArgument
    rw [if_pos hs]
    unfold jsSplitOn
    rw [hsp]
    show (Except.ok ⟨String.mk arg.data, none⟩ : Except String LinkArgument) =
      Except.ok ⟨arg, none⟩
    rw [string_mk_data]
  · intro hs hm
    obtain ⟨b, rs, hsp⟩ := splitOnChar_of_mem '/' arg.data hm
    unfold parsePackageArgument
    rw [if_pos hs]
    unfold jsSplitOn
    rw [hsp]
    rfl

/-- Claim C10: implicit two-section restriction. A dependency name declared
only under peerDependencies or optionalDependencies (absent from both
dependencies and devDependencies) is never in the smart-mode link set —
whether or not it is same-scope or pattern-matching — and is never reported
by the status scan, for every filesystem. -/
theorem c10_two_section_restriction (pj : PackageJson) (currentScope : String)
    (externalLinkPatterns : List String) (d packagePath : String)
    (readlinkAt : String → Option String)
    (_hdecl : (jsGet pj.peerDependencies d).isSome ∨ (jsGet pj.optionalDependencies d).isSome)
    (hdep : jsGet pj.dependencies d = none)
    (hdev : jsGet pj.devDependencies d = none) :
    d ∉ smartLinkSet currentScope pj externalLinkPatterns ∧
    ∀ r ∈ findLinkedDependencies packagePath pj readlinkAt, r.dependencyName ≠ d := by
  have hkeys : d ∉ (spreadMerge pj.dependencies pj.devDependencies).map Prod.fst := by
    intro hm
    cases mem_keys_spreadMerge hm with
    | inl h => exact ((jsGet_eq_none_iff _ _).mp hdep) h
    | inr h => exact ((jsGet_eq_none_iff _ _).mp hdev) h
  constructor
  · intro hm
    unfold smartLinkSet sameScopeDeps externalDeps at hm
    cases List.mem_append.mp hm with
    | inl h => exact hkeys (List.mem_filter.mp h).1
    | inr h => exact hkeys (List.mem_filter.mp h).1
  · intro r hr he
    have hr' : r ∈ findLinkedDepsLoop (pathJoin packagePath "node_modules") readlinkAt
        (spreadMerge pj.dependencies pj.devDependencies) := hr
    exact hkeys (he ▸ (mem_findLinkedDepsLoop hr').1)

/-- Witness for C10 at a concrete input: "@acme/x" is declared only under
peerDependencies of a package whose dependencies hold only lodash; it is in
scope "@acme" and matches the pattern list, yet is neither in the link set
nor reported by a scan of a filesystem where its slot is a symlink. -/
theorem c10_two_section_restriction_witness :
    ("@acme/x" : String) ∉ smartLinkSet "@acme"
        ⟨"@acme/widgets", [("lodash", "^4.0.0")], [], [("@acme/x", "^1.0.0")], []⟩ ["@acme/x"] ∧
    ∀ r ∈ findLinkedDependencies "/ws/widgets"
        ⟨"@acme/widgets", [("lodash", "^4.0.0")], [], [("@acme/x", "^1.0.0")], []⟩
        (fun p => if p = "/ws/widgets/node_modules/@acme/x" then some "../../x" else none),
      r.dependencyName ≠ "@acme/x" :=
  c10_two_section_restriction
    ⟨"@acme/widgets", [("lodash", "^4.0.0")], [], [("@acme/x", "^1.0.0")], []⟩
    "@acme" ["@acme/x"] "@acme/x" "/ws/widgets"
    (fun p => if p = "/ws/widgets/node_modules/@acme/x" then some "../../x" else none)
    (Or.inl (by decide)) (by decide) (by decide)

/-- Claim C7: smart-mode empty link set. When the current manifest parses
with a non-empty scoped name and no merged dependency key is same-scope or
pattern-matching, a real (non-dry-run) smart link performs exactly the
self-registration effect — it never queries the global link registry and
performs no symlink reconciliation — and returns exactly the string
"Self-linked <name>, no dependencies to link". -/
theorem c7_smart_empty_link_set (env : SmartEnv) (cfg : SmartConfig) (pj : PackageJson)
    (currentScope : String)
    (hread : env.currentPkgJson = .ok pj)
    (hname : pj.name ≠ "")
    (hscope : scopeOfName pj.name = some currentScope)
    (hdry : cfg.isDryRun = false)
    (hnone : ∀ d ∈ (spreadMerge pj.dependencies pj.devDependencies).map Prod.fst,
      jsStartsWith d (currentScope ++ "/") = false ∧
      matchesExternalLinkPattern d cfg.externals = false) :
    smartLink env cfg =
      ("Self-linked " ++ pj.name ++ ", no dependencies to link", [Effect.runNpmLinkSelf]) ∧
    Effect.queryGlobalRegistry ∉ (smartLink env cfg).2 ∧
    ∀ dep src, Effect.mkSymlink dep src ∉ (smartLink env cfg).2 := by
  have hsame : sameScopeDeps currentScope pj = [] := by
    unfold sameScopeDeps
    apply List.filter_eq_nil_iff.mpr
    intro a ha
    simp [(hnone a ha).1]
  have hext : externalDeps pj cfg.externals = [] := by
    unfold externalDeps
    apply List.filter_eq_nil_iff.mpr
    intro a ha
    simp [(hnone a ha).2]
  have hmain : smartLink env cfg =
      ("Self-linked " ++ pj.name ++ ", no dependencies to link", [Effect.runNpmLinkSelf]) := by
    unfold smartLink
    rw [hread]
    show smartLinkParsed env cfg pj = _
    unfold smartLinkParsed
    rw [if_neg hname, hscope]
    show smartLinkScoped env cfg pj currentScope = _
    simp [smartLinkScoped, hsame, hext, hdry]
  refine ⟨hmain, ?_, ?_⟩
  · rw [hmain]
    simp
  · intro dep src
    rw [hmain]
    simp

/-- A concrete smart-link environment for the no-matches scenario: the
current package "@acme/widgets" depends only on lodash. -/
def smartEnvWidgets : SmartEnv :=
  { currentDir := "/ws/widgets"
  , currentPkgJson := .ok ⟨"@acme/widgets", [("lodash", "^4.0.0")], [], [], []⟩
  , selfLinkOk := true
  , scopeRootLinkOk := fun _ => true
  , registryOutput := .ok ""
  , readPkgAt := fun _ => .error "ENOENT"
  , symlinkOk := fun _ _ => true }

/-- Witness for C7 at the spec's concrete scenario: "@acme/widgets"
depending only on lodash self-registers and returns exactly
"Self-linked @acme/widgets, no dependencies to link" with no registry query
and no symlink reconciliation. -/
theorem c7_smart_empty_link_set_witness :
    smartLink smartEnvWidgets ⟨false, [], []⟩ =
      ("Self-linked " ++ "@acme/widgets" ++ ", no dependencies to link",
        [Effect.runNpmLinkSelf]) ∧
    Effect.queryGlobalRegistry ∉ (smartLink smartEnvWidgets ⟨false, [], []⟩).2 ∧
    ∀ dep src, Effect.mkSymlink dep src ∉ (smartLink smartEnvWidgets ⟨false, [], []⟩).2 :=
  c7_smart_empty_link_set smartEnvWidgets ⟨false, [], []⟩
    ⟨"@acme/widgets", [("lodash", "^4.0.0")], [], [], []⟩ "@acme"
    rfl (by decide) (by decide) rfl (by decide)

/-- Claim C1: asymmetric failure policy between explicit-mode link and
unlink. When relinking the consumers of a source package and one consumer
fails (all before it succeeding), the link consumer loop stops at that
consumer having processed exactly its predecessors, the whole operation for
the source package raises with that consumer's failure, and the package is
not counted as linked; the unlink consumer loop, by contrast, attempts every
consumer, records the same consumer's failure only as a warning outcome, and
the unlink operation still counts the package as unlinked. -/
theorem c1_link_unlink_failure_asymmetry (env : ExplicitEnv) (ws : List PkgEntry)
    (pkg : WsPackage) (cs1 cs2 : List Consumer) (c : Consumer)
    (hcons : findConsumingPackages ws pkg.name = cs1 ++ c :: cs2)
    (hok : ∀ x ∈ cs1, env.npmLinkConsumer pkg.name x.path = true)
    (hfail : env.npmLinkConsumer pkg.name c.path = false)
    (hsrc : env.npmLinkSource pkg.path = true)
    (hufail : env.npmUnlinkConsumer pkg.name c.path = false) :
    linkConsumerLoop env false pkg.name (findConsumingPackages ws pkg.name) =
      (cs1, some (LinkFailure.consumerLinkFailed pkg.name c.name)) ∧
    linkPackagesLoop env ws false [pkg] =
      .error (LinkFailure.consumerLinkFailed pkg.name c.name) ∧
    (unlinkConsumerLoop env false pkg.name (findConsumingPackages ws pkg.name)).map Prod.fst =
      cs1 ++ c :: cs2 ∧
    (c, false) ∈ unlinkConsumerLoop env false pkg.name (findConsumingPackages ws pkg.name) ∧
    (unlinkPackagesLoop env ws false [pkg]).1 = [pkg.name] := by
  have hloop : linkConsumerLoop env false pkg.name (findConsumingPackages ws pkg.name) =
      (cs1, some (LinkFailure.consumerLinkFailed pkg.name c.name)) := by
    rw [hcons]
    exact linkConsumerLoop_abort env pkg.name cs1 cs2 c hok hfail
  refine ⟨hloop, ?_, ?_, ?_, rfl⟩
  · unfold linkPackagesLoop
    rw [hsrc, hloop]
    rfl
  · rw [hcons]
    exact unlinkConsumerLoop_fst env false pkg.name (cs1 ++ c :: cs2)
  · have hm : c ∈ findConsumingPackages ws pkg.name := by
      rw [hcons]
      exact List.mem_append.mpr (Or.inr (List.mem_cons_self c cs2))
    have := unlinkConsumerLoop_mem env pkg.name hm
    rw [hufail] at this
    exact this

/-- A concrete subprocess-outcome environment for the asymmetry scenario:
every npm call succeeds except the per-consumer link and unlink issued
inside the consumer at "/ws/bad". -/
def explicitEnvOneBad : ExplicitEnv :=
  { npmLinkSource := fun _ => true
  , npmLinkConsumer := fun _ p => p ≠ "/ws/bad"
  , npmUnlinkConsumer := fun _ p => p ≠ "/ws/bad"
  , npmUnlinkSource := fun _ => true }

/-- A concrete workspace for the asymmetry scenario: two consumers of
"@acme/a", the second of which is the failing one. -/
def wsOneBad : List PkgEntry :=
  [⟨"/ws/good", ⟨"@acme/good", [("@acme/a", "^1.0.0")], [], [], []⟩⟩,
   ⟨"/ws/bad", ⟨"@acme/bad", [("@acme/a", "^1.0.0")], [], [], []⟩⟩]

/-- Witness for C1 at a concrete input: with consumers "@acme/good" then
"@acme/bad" and the npm call failing only in "/ws/bad", explicit link
processes only the first consumer and raises, while explicit unlink attempts
both, records the failure as a warning outcome, and still counts the
package. -/
theorem c1_link_unlink_failure_asymmetry_witness :
    linkConsumerLoop explicitEnvOneBad false "@acme/a"
        (findConsumingPackages wsOneBad "@acme/a") =
      ([⟨"@acme/good", "/ws/good"⟩],
        some (LinkFailure.consumerLinkFailed "@acme/a" "@acme/bad")) ∧
    linkPackagesLoop explicitEnvOneBad wsOneBad false [⟨"@acme/a", "/ws/a"⟩] =
      .error (LinkFailure.consumerLinkFailed "@acme/a" "@acme/bad") ∧
    (unlinkConsumerLoop explicitEnvOneBad false "@acme/a"
        (findConsumingPackages wsOneBad "@acme/a")).map Prod.fst =
      [⟨"@acme/good", "/ws/good"⟩] ++ ⟨"@acme/bad", "/ws/bad"⟩ :: [] ∧
    ((⟨"@acme/bad", "/ws/bad"⟩ : Consumer), false) ∈
      unlinkConsumerLoop explicitEnvOneBad false "@acme/a"
        (findConsumingPackages wsOneBad "@acme/a") ∧
    (unlinkPackagesLoop explicitEnvOneBad wsOneBad false [⟨"@acme/a", "/ws/a"⟩]).1 =
      ["@acme/a"] :=
  c1_link_unlink_failure_asymmetry explicitEnvOneBad wsOneBad ⟨"@acme/a", "/ws/a"⟩
    [⟨"@acme/good", "/ws/good"⟩] [] ⟨"@acme/bad", "/ws/bad"⟩
    (by decide) (by decide) (by decide) (by decide) (by decide)
